import Mathlib

/-!
Shallow embedding of the tool-augmented conversation driver of the
starting-ragchatbot codebase (`backend/ai_generator.py`), together with the
tool-dispatch contract of the Tool Registry/Manager, and proofs of the
specification's claims about them.

The driver is modelled as a pure function of two oracles: the conversational
model (`Model`, indexed by the number of requests already issued in this
query) and the tool manager's `execute_tool` (`ToolMgr`).  A raised Python
exception is modelled as `Except.error`.  The embedding is instrumented with a
`Trace` that records every request issued to the model and every tool
dispatch, so that request counts and request contents can be stated.
-/

namespace RagChatbot

/-- A `tool_use` content block as the driver reads it: `.name`, `.input`
(keyword arguments), `.id` (ai_generator.py lines 119-126). -/
structure ToolUseBlock where
  name : String
  input : List (String × String)
  id : String
deriving Repr, DecidableEq

/-- A content block of a model response.  The driver distinguishes blocks by
`block.type == "tool_use"` and by `hasattr(block, 'text')`; in the Anthropic
SDK exactly the `text` blocks carry a `text` attribute. -/
inductive ContentBlock where
  | text (s : String)
  | toolUse (t : ToolUseBlock)
deriving Repr, DecidableEq

/-- A `tool_result` block sent back to the model (lines 124-128). -/
structure ToolResultBlock where
  tool_use_id : String
  content : String
deriving Repr, DecidableEq

/-- Content of one conversation turn: a plain string (the user query),
the model's content blocks (assistant turn), or a list of tool results
(the user turn built at line 132). -/
inductive MessageContent where
  | str (s : String)
  | blocks (bs : List ContentBlock)
  | results (rs : List ToolResultBlock)
deriving Repr, DecidableEq

/-- One message of the `messages` list sent to the model. -/
structure Message where
  role : String
  content : MessageContent
deriving Repr, DecidableEq

/-- A tool schema; the driver passes these through verbatim and never
inspects them, so the schema body is kept opaque. -/
structure ToolDef where
  name : String
  description : String
  input_schema : String
deriving Repr, DecidableEq

/-- The keyword arguments of one `client.messages.create(**api_params)` call.
`tools = none` / `tool_choice = none` model the keys being absent. -/
structure ApiParams where
  temperature : Nat
  max_tokens : Nat
  messages : List Message
  system : String
  tools : Option (List ToolDef)
  tool_choice : Option String
deriving Repr, DecidableEq

/-- A model response as the driver reads it: `.content` and `.stop_reason`. -/
structure ApiResponse where
  content : List ContentBlock
  stop_reason : String
deriving Repr, DecidableEq

/-- Instrumentation: the requests issued to the model and the tool dispatches
performed, in order. -/
structure Trace where
  requests : List ApiParams
  toolCalls : List (String × List (String × String))
deriving Repr, DecidableEq

/-- A Python exception escaping `generate_response`: an exception raised by
`client.messages.create`, one raised by `tool_manager.execute_tool`, the
IndexError of `response.content[0]` on an empty list, or the AttributeError
of `.text` on a block that has no such attribute. -/
inductive Err where
  | apiError (msg : String)
  | toolError (msg : String)
  | indexError
  | attributeError
deriving Repr, DecidableEq

/-- Result of a call to `generate_response`: a returned string or a raised
exception. -/
inductive Outcome where
  | ok (s : String)
  | err (e : Err)
deriving Repr, DecidableEq

/-- A full run: the outcome together with the instrumentation trace. -/
structure Run where
  outcome : Outcome
  trace : Trace
deriving Repr, DecidableEq

/-- The conversational model oracle: given the number of requests already
issued in this query and the request parameters, return a response or raise. -/
abbrev Model := Nat → ApiParams → Except String ApiResponse

/-- The tool manager's `execute_tool` as the driver consumes it:
`execute_tool(name, **kwargs)` returns a string or raises. -/
abbrev ToolMgr := String → List (String × String) → Except String String

/-- The static system prompt of `AIGenerator` (ai_generator.py lines 8-34),
verbatim, including the source file's own mojibake em-dash bytes. -/
def SYSTEM_PROMPT : String :=
  " You are an AI assistant specialized in course materials and educational content with access to tools for course information.\n\nAvailable Tools:\n1. **search_course_content** - Search within course content for specific information\n2. **get_course_outline** - Get course structure (title, course link, lesson list with numbers and titles)\n\nTool Selection:\n- **Outline queries** (course structure, lesson lists, what topics a course covers): Use get_course_outline\n  - For outline responses, include: course title, course link, and all lessons with their numbers and titles\n- **Content queries** (specific information, explanations, details within lessons): Use search_course_content\n- You may use multiple tools if needed to fully answer a question\n- If a tool yields no results, state this clearly without offering alternatives\n\nResponse Protocol:\n- **General knowledge questions**: Answer using existing knowledge without searching\n- **Course-specific questions**: Use appropriate tool first, then answer\n- **No meta-commentary**:\n - Provide direct answers only â€” no reasoning process, search explanations, or question-type analysis\n - Do not mention \"based on the search results\" or \"based on the outline\"\n\nAll responses must be:\n1. **Brief, Concise and focused** - Get to the point quickly\n2. **Educational** - Maintain instructional value\n3. **Clear** - Use accessible language\n4. **Example-supported** - Include relevant examples when they aid understanding\nProvide only the direct answer to what was asked.\n"

/-- Fallback returned when the final response has no content blocks
(line 154). -/
def noResponseFallback : String :=
  "I was unable to generate a response. Please try rephrasing your question."

/-- Fallback returned when no content block of the final response carries a
`text` attribute (line 162). -/
def noTextFallback : String :=
  "I was unable to generate a text response. Please try again."

/-- The system content (lines 65-69): Python's
`f"{SYSTEM_PROMPT}\n\nPrevious conversation:\n{history}" if conversation_history
else SYSTEM_PROMPT`; note that `if conversation_history` is falsy both for
`None` and for the empty string. -/
def buildSystemContent : Option String → String
  | some h =>
      if h.isEmpty then SYSTEM_PROMPT
      else SYSTEM_PROMPT ++ "\n\nPrevious conversation:\n" ++ h
  | none => SYSTEM_PROMPT

/-- Python `if tools:` (line 79): the tools key is attached only when the
argument is a non-empty list. -/
def attachedTools : Option (List ToolDef) → Option (List ToolDef)
  | some ts => if ts.isEmpty then none else some ts
  | none => none

/-- The parameters of the initial request (lines 72-81): base params
(temperature 0, max_tokens 800), the single user message, the system content,
and the tools plus `tool_choice = auto` when a non-empty tools list was
supplied. -/
def initialParams (query : String) (conversation_history : Option String)
    (tools : Option (List ToolDef)) : ApiParams :=
  { temperature := 0
    max_tokens := 800
    messages := [{ role := "user", content := .str query }]
    system := buildSystemContent conversation_history
    tools := attachedTools tools
    tool_choice := if (attachedTools tools).isSome then some "auto" else none }

/-- Execute every `tool_use` block of a response's content in order
(lines 117-128), recording each dispatch in the trace; a raising tool aborts
the scan with its exception. -/
def executeToolBlocks (mgr : ToolMgr) :
    List ContentBlock → Trace → Trace × Except String (List ToolResultBlock)
  | [], tr => (tr, .ok [])
  | .text _ :: rest, tr => executeToolBlocks mgr rest tr
  | .toolUse t :: rest, tr =>
    match mgr t.name t.input with
    | .error e => ({ tr with toolCalls := tr.toolCalls ++ [(t.name, t.input)] }, .error e)
    | .ok r =>
      match executeToolBlocks mgr rest
          { tr with toolCalls := tr.toolCalls ++ [(t.name, t.input)] } with
      | (tr2, .ok rs) => (tr2, .ok (({ tool_use_id := t.id, content := r } : ToolResultBlock) :: rs))
      | (tr2, .error e) => (tr2, .error e)

/-- The message list after one loop iteration has appended the assistant turn
(line 114) and, when at least one tool result was produced, all tool results
as a single user turn (lines 130-132). -/
def bodyMessages (msgs : List Message) (cur : ApiResponse)
    (rs : List ToolResultBlock) : List Message :=
  if rs.isEmpty then
    msgs ++ [{ role := "assistant", content := .blocks cur.content }]
  else
    msgs ++ [{ role := "assistant", content := .blocks cur.content },
             { role := "user", content := .results rs }]

/-- The follow-up request parameters (lines 134-144): base invocation params,
the accumulated messages, the same system content, and the tools plus
`tool_choice = auto` exactly when the initial request carried tools. -/
def mkNextParams (base : ApiParams) (messages : List Message) : ApiParams :=
  { temperature := 0
    max_tokens := 800
    messages := messages
    system := base.system
    tools := base.tools
    tool_choice := if base.tools.isSome then some "auto" else none }

/-- Result of one iteration of the tool-execution while-loop: a follow-up
response was obtained (with the accumulated messages and trace), or an
exception escaped. -/
inductive StepOut where
  | next (resp : ApiResponse) (msgs : List Message) (tr : Trace)
  | fail (e : Err) (tr : Trace)
deriving Repr, DecidableEq

/-- The trace carried by a step result. -/
def StepOut.trace : StepOut → Trace
  | .next _ _ tr => tr
  | .fail _ tr => tr

/-- One iteration of the while-loop of `_handle_tool_execution`
(lines 111-146): append the assistant turn, execute the tool calls, append
the tool results as one user turn when there are any, and issue the
follow-up request. -/
def loopBody (client : Model) (mgr : ToolMgr) (base : ApiParams)
    (msgs : List Message) (cur : ApiResponse) (tr : Trace) : StepOut :=
  match executeToolBlocks mgr cur.content tr with
  | (tr1, .error e) => .fail (.toolError e) tr1
  | (tr1, .ok results) =>
    match client tr1.requests.length (mkNextParams base (bodyMessages msgs cur results)) with
    | .error e =>
      .fail (.apiError e)
        { tr1 with requests := tr1.requests ++ [mkNextParams base (bodyMessages msgs cur results)] }
    | .ok resp =>
      .next resp (bodyMessages msgs cur results)
        { tr1 with requests := tr1.requests ++ [mkNextParams base (bodyMessages msgs cur results)] }

/-- Result of the whole while-loop: the final `current_response` (with the
accumulated messages and trace), or an exception. -/
inductive LoopOut where
  | done (resp : ApiResponse) (msgs : List Message) (tr : Trace)
  | err (e : Err) (tr : Trace)
deriving Repr, DecidableEq

/-- The trace carried by a loop result. -/
def LoopOut.trace : LoopOut → Trace
  | .done _ _ tr => tr
  | .err _ tr => tr

/-- The while-loop of `_handle_tool_execution` (lines 110-150); the fuel is
`max_iterations - iteration`.  The loop exits with the current response when
the budget is exhausted, or when a follow-up response does not signal
tool use. -/
def handleLoop (client : Model) (mgr : ToolMgr) (base : ApiParams) :
    Nat → List Message → ApiResponse → Trace → LoopOut
  | 0, msgs, cur, tr => .done cur msgs tr
  | n + 1, msgs, cur, tr =>
    match loopBody client mgr base msgs cur tr with
    | .fail e tr1 => .err e tr1
    | .next resp msgs2 tr1 =>
      if resp.stop_reason == "tool_use" then
        handleLoop client mgr base n msgs2 resp tr1
      else .done resp msgs2 tr1

/-- The first content block carrying a `text` attribute
(the `hasattr(block, 'text')` scan of lines 157-159). -/
def findTextBlock : List ContentBlock → Option String
  | [] => none
  | .text s :: _ => some s
  | .toolUse _ :: rest => findTextBlock rest

/-- Text extraction from the final response (lines 152-162): the first
fallback on empty content, otherwise the first text-bearing block's text,
otherwise the second fallback. -/
def extractFinalText (resp : ApiResponse) : String :=
  if resp.content.isEmpty then noResponseFallback
  else
    match findTextBlock resp.content with
    | some s => s
    | none => noTextFallback

/-- `AIGenerator._handle_tool_execution` (lines 93-162), instrumented. -/
def handle_tool_execution (client : Model) (mgr : ToolMgr)
    (initial_response : ApiResponse) (base : ApiParams) (tr : Trace)
    (max_iterations : Nat := 3) : Run :=
  match handleLoop client mgr base max_iterations base.messages initial_response tr with
  | .done resp _ tr1 => { outcome := .ok (extractFinalText resp), trace := tr1 }
  | .err e tr1 => { outcome := .err e, trace := tr1 }

/-- `return response.content[0].text` (line 91): IndexError on empty content,
AttributeError when the first block carries no `text` attribute. -/
def directText (resp : ApiResponse) : Except Err String :=
  match resp.content with
  | [] => .error .indexError
  | .text s :: _ => .ok s
  | .toolUse _ :: _ => .error .attributeError

/-- Wrap the direct-path return as a `Run`. -/
def directRun (resp : ApiResponse) (tr : Trace) : Run :=
  match directText resp with
  | .ok s => { outcome := .ok s, trace := tr }
  | .error e => { outcome := .err e, trace := tr }

/-- `AIGenerator.generate_response` (lines 47-91), instrumented with the
trace of issued requests and tool dispatches. -/
def generate_response (client : Model) (query : String)
    (conversation_history : Option String := none)
    (tools : Option (List ToolDef) := none)
    (tool_manager : Option ToolMgr := none) : Run :=
  match client 0 (initialParams query conversation_history tools) with
  | .error e =>
    { outcome := .err (.apiError e),
      trace := { requests := [initialParams query conversation_history tools], toolCalls := [] } }
  | .ok response =>
    if response.stop_reason == "tool_use" then
      match tool_manager with
      | some mgr =>
        handle_tool_execution client mgr response (initialParams query conversation_history tools)
          { requests := [initialParams query conversation_history tools], toolCalls := [] }
      | none =>
        directRun response
          { requests := [initialParams query conversation_history tools], toolCalls := [] }
    else
      directRun response
        { requests := [initialParams query conversation_history tools], toolCalls := [] }

/-- Modelled from the spec: `search_tools.py` (the `ToolManager` class) is not
among the provided source files, only its tests are.  Per spec section 4.2
the manager holds named capabilities; `execute_tool` looks the capability up
by name, returns the string `Tool (name) not found` when absent, and
otherwise delegates and returns the capability's string result verbatim. -/
structure ToolManager where
  tools : List (String × (List (String × String) → String))

/-- Modelled from the spec: `ToolManager.execute_tool(name, **kwargs)`. -/
def ToolManager.execute_tool (m : ToolManager) (name : String)
    (kwargs : List (String × String)) : String :=
  match m.tools.find? (fun p => p.1 == name) with
  | none => "Tool \x27" ++ name ++ "\x27 not found"
  | some p => p.2 kwargs

/-- The ids of the `tool_use` blocks of a content list, in order. -/
def toolUseIds : List ContentBlock → List String
  | [] => []
  | .text _ :: rest => toolUseIds rest
  | .toolUse t :: rest => t.id :: toolUseIds rest

/-- Executing the tool blocks records tool dispatches but issues no model
request: the request list of the trace is unchanged. -/
theorem executeToolBlocks_requests (mgr : ToolMgr) (bs : List ContentBlock) (tr : Trace) :
    (executeToolBlocks mgr bs tr).1.requests = tr.requests := by
  induction bs generalizing tr with
  | nil => rfl
  | cons b rest ih =>
    cases b with
    | text s => simpa [executeToolBlocks] using ih tr
    | toolUse t =>
      simp only [executeToolBlocks]
      cases h : mgr t.name t.input with
      | error e => rfl
      | ok r =>
        rcases h2 : executeToolBlocks mgr rest
            { tr with toolCalls := tr.toolCalls ++ [(t.name, t.input)] } with ⟨tr2, res⟩
        have h3 := ih { tr with toolCalls := tr.toolCalls ++ [(t.name, t.input)] }
        rw [h2] at h3
        cases res <;> simpa [h2] using h3

/-- A successful tool-block scan produces one `tool_result` per `tool_use`
block, in order, with matching ids. -/
theorem executeToolBlocks_ids (mgr : ToolMgr) (bs : List ContentBlock) (tr tr1 : Trace)
    (rs : List ToolResultBlock)
    (hexec : executeToolBlocks mgr bs tr = (tr1, .ok rs)) :
    rs.map (fun r => r.tool_use_id) = toolUseIds bs := by
  induction bs generalizing tr rs with
  | nil =>
    simp only [executeToolBlocks] at hexec
    cases hexec
    rfl
  | cons b rest ih =>
    cases b with
    | text s =>
      simp only [executeToolBlocks] at hexec
      simpa [toolUseIds] using ih tr rs hexec
    | toolUse t =>
      simp only [executeToolBlocks] at hexec
      cases h : mgr t.name t.input with
      | error e => rw [h] at hexec; cases hexec
      | ok r =>
        rw [h] at hexec
        rcases h2 : executeToolBlocks mgr rest
            { tr with toolCalls := tr.toolCalls ++ [(t.name, t.input)] } with ⟨tr2, res⟩
        rw [h2] at hexec
        cases res with
        | error e => cases hexec
        | ok rs2 =>
          cases hexec
          simpa [toolUseIds] using ih _ rs2 h2

/-- The trace of `handle_tool_execution` is the trace of its while-loop. -/
theorem handle_tool_execution_trace (client : Model) (mgr : ToolMgr) (resp : ApiResponse)
    (base : ApiParams) (tr : Trace) (n : Nat) :
    (handle_tool_execution client mgr resp base tr n).trace =
      (handleLoop client mgr base n base.messages resp tr).trace := by
  unfold handle_tool_execution
  cases handleLoop client mgr base n base.messages resp tr <;> rfl

/-- The direct return path leaves the trace unchanged. -/
theorem directRun_trace (resp : ApiResponse) (tr : Trace) :
    (directRun resp tr).trace = tr := by
  unfold directRun
  cases directText resp <;> rfl

/-- One loop iteration issues at most one model request. -/
theorem loopBody_trace_len (client : Model) (mgr : ToolMgr) (base : ApiParams)
    (msgs : List Message) (cur : ApiResponse) (tr : Trace) :
    (loopBody client mgr base msgs cur tr).trace.requests.length ≤ tr.requests.length + 1 := by
  unfold loopBody
  rcases hx : executeToolBlocks mgr cur.content tr with ⟨tr1, res⟩
  have hreq : tr1.requests = tr.requests := by
    have h := executeToolBlocks_requests mgr cur.content tr
    rw [hx] at h
    exact h
  cases res with
  | error e => simp [StepOut.trace, hreq]
  | ok rs =>
    cases hcall : client tr1.requests.length (mkNextParams base (bodyMessages msgs cur rs)) with
    | error e =>
      rw [hreq] at hcall
      simp [hcall, StepOut.trace, hreq]
    | ok resp =>
      rw [hreq] at hcall
      simp [hcall, StepOut.trace, hreq]

/-- The while-loop with `fuel` iterations left issues at most `fuel` further
model requests. -/
theorem handleLoop_trace_len (client : Model) (mgr : ToolMgr) (base : ApiParams)
    (fuel : Nat) (msgs : List Message) (cur : ApiResponse) (tr : Trace) :
    (handleLoop client mgr base fuel msgs cur tr).trace.requests.length ≤
      tr.requests.length + fuel := by
  induction fuel generalizing msgs cur tr with
  | zero => simp [handleLoop, LoopOut.trace]
  | succ n ih =>
    have hb := loopBody_trace_len client mgr base msgs cur tr
    unfold handleLoop
    cases hb2 : loopBody client mgr base msgs cur tr with
    | fail e tr1 =>
      rw [hb2] at hb
      simp only [StepOut.trace] at hb
      simp only [LoopOut.trace]
      omega
    | next resp msgs2 tr1 =>
      rw [hb2] at hb
      simp only [StepOut.trace] at hb
      cases hs : resp.stop_reason == "tool_use" with
      | false =>
        simp only [hs, Bool.false_eq_true, if_false, LoopOut.trace]
        omega
      | true =>
        simp only [hs, if_true]
        have h2 := ih msgs2 resp tr1
        omega

/-- Any property that holds of the old requests and of every follow-up
request built by `mkNextParams` holds of all requests after one loop
iteration. -/
theorem loopBody_requests_all {P : ApiParams → Prop} (client : Model) (mgr : ToolMgr)
    (base : ApiParams) (msgs : List Message) (cur : ApiResponse) (tr : Trace)
    (hP : ∀ m, P (mkNextParams base m)) (h0 : ∀ p ∈ tr.requests, P p) :
    ∀ p ∈ (loopBody client mgr base msgs cur tr).trace.requests, P p := by
  unfold loopBody
  rcases hx : executeToolBlocks mgr cur.content tr with ⟨tr1, res⟩
  have hreq : tr1.requests = tr.requests := by
    have h := executeToolBlocks_requests mgr cur.content tr
    rw [hx] at h
    exact h
  cases res with
  | error e =>
    intro p hp
    simp only [StepOut.trace] at hp
    rw [hreq] at hp
    exact h0 p hp
  | ok rs =>
    cases hcall : client tr1.requests.length (mkNextParams base (bodyMessages msgs cur rs)) with
    | error e =>
      rw [hreq] at hcall
      intro p hp
      simp only [hreq, hcall, StepOut.trace] at hp
      rcases List.mem_append.1 hp with h | h
      · exact h0 p h
      · rw [List.mem_singleton.1 h]
        exact hP _
    | ok resp =>
      rw [hreq] at hcall
      intro p hp
      simp only [hreq, hcall, StepOut.trace] at hp
      rcases List.mem_append.1 hp with h | h
      · exact h0 p h
      · rw [List.mem_singleton.1 h]
        exact hP _

/-- Any property that holds of the old requests and of every follow-up
request built by `mkNextParams` holds of all requests issued by the
while-loop. -/
theorem handleLoop_requests_all {P : ApiParams → Prop} (client : Model) (mgr : ToolMgr)
    (base : ApiParams) (hP : ∀ m, P (mkNextParams base m)) :
    ∀ (fuel : Nat) (msgs : List Message) (cur : ApiResponse) (tr : Trace),
      (∀ p ∈ tr.requests, P p) →
      ∀ p ∈ (handleLoop client mgr base fuel msgs cur tr).trace.requests, P p := by
  intro fuel
  induction fuel with
  | zero =>
    intro msgs cur tr h0
    simpa [handleLoop, LoopOut.trace] using h0
  | succ n ih =>
    intro msgs cur tr h0
    have hbody := loopBody_requests_all client mgr base msgs cur tr hP h0
    unfold handleLoop
    cases hb : loopBody client mgr base msgs cur tr with
    | fail e tr1 =>
      rw [hb] at hbody
      simpa [StepOut.trace, LoopOut.trace] using hbody
    | next resp msgs2 tr1 =>
      rw [hb] at hbody
      simp only [StepOut.trace] at hbody
      cases hs : resp.stop_reason == "tool_use" with
      | false =>
        simp only [hs, Bool.false_eq_true, if_false, LoopOut.trace]
        exact hbody
      | true =>
        simp only [hs, if_true]
        exact ih msgs2 resp tr1 hbody

/-- Claim C1: for every query, the driver issues at most
`1 + max_iterations = 4` model requests in total: one initial request plus at
most three follow-up requests from the tool-execution loop. -/
theorem driver_request_bound (client : Model) (query : String)
    (hist : Option String) (tools : Option (List ToolDef)) (mgr : Option ToolMgr) :
    (generate_response client query hist tools mgr).trace.requests.length ≤ 1 + 3 := by
  unfold generate_response
  cases hc : client 0 (initialParams query hist tools) with
  | error e => simp
  | ok response =>
    cases hs : response.stop_reason == "tool_use" with
    | false =>
      simp only [hs, Bool.false_eq_true, if_false, directRun_trace]
      simp
    | true =>
      simp only [hs, if_true]
      cases mgr with
      | none => simp [directRun_trace]
      | some m =>
        rw [handle_tool_execution_trace]
        have h2 := handleLoop_trace_len client m (initialParams query hist tools) 3
          (initialParams query hist tools).messages response
          { requests := [initialParams query hist tools], toolCalls := [] }
        simpa using h2

/-- Any property that holds of the initial request and of every
`mkNextParams` follow-up holds of every request of a full
`generate_response` run. -/
theorem generate_response_requests_all {P : ApiParams → Prop} (client : Model)
    (query : String) (hist : Option String) (tools : Option (List ToolDef))
    (mgr : Option ToolMgr)
    (hinit : P (initialParams query hist tools))
    (hP : ∀ m, P (mkNextParams (initialParams query hist tools) m)) :
    ∀ p ∈ (generate_response client query hist tools mgr).trace.requests, P p := by
  unfold generate_response
  cases hc : client 0 (initialParams query hist tools) with
  | error e =>
    intro p hp
    simp only [List.mem_singleton] at hp
    rw [hp]
    exact hinit
  | ok response =>
    cases hs : response.stop_reason == "tool_use" with
    | false =>
      simp only [hs, Bool.false_eq_true, if_false, directRun_trace]
      intro p hp
      simp only [List.mem_singleton] at hp
      rw [hp]
      exact hinit
    | true =>
      simp only [hs, if_true]
      cases mgr with
      | none =>
        simp only [directRun_trace]
        intro p hp
        simp only [List.mem_singleton] at hp
        rw [hp]
        exact hinit
      | some m =>
        rw [handle_tool_execution_trace]
        refine handleLoop_requests_all client m (initialParams query hist tools) hP 3
          (initialParams query hist tools).messages response
          { requests := [initialParams query hist tools], toolCalls := [] } ?_
        intro p hp
        simp only [List.mem_singleton] at hp
        rw [hp]
        exact hinit

/-- Claim C9: every model request the driver issues — the initial request and
every follow-up of the tool-execution loop — carries temperature 0 and
max_tokens 800, with tool_choice "auto" whenever tool schemas are attached. -/
theorem fixed_invocation_params (client : Model) (query : String)
    (hist : Option String) (tools : Option (List ToolDef)) (mgr : Option ToolMgr) :
    ∀ p ∈ (generate_response client query hist tools mgr).trace.requests,
      p.temperature = 0 ∧ p.max_tokens = 800 ∧
      (p.tools.isSome → p.tool_choice = some "auto") := by
  refine generate_response_requests_all client query hist tools mgr ?_ ?_
  · refine ⟨rfl, rfl, ?_⟩
    intro h
    simp only [initialParams] at h ⊢
    simp [h]
  · intro m
    refine ⟨rfl, rfl, ?_⟩
    intro h
    simp only [mkNextParams] at h ⊢
    simp [h]

/-- Claim C5: when a conversation history string is supplied it appears
verbatim inside the system content of every model request of the query;
when no history is supplied the system content of every request equals
SYSTEM_PROMPT exactly. -/
theorem history_in_system_content (client : Model) (query : String)
    (hist : Option String) (tools : Option (List ToolDef)) (mgr : Option ToolMgr) :
    ∀ p ∈ (generate_response client query hist tools mgr).trace.requests,
      (∀ h, hist = some h → ∃ pre post, p.system = pre ++ h ++ post) ∧
      (hist = none → p.system = SYSTEM_PROMPT) := by
  have hsys : ∀ p ∈ (generate_response client query hist tools mgr).trace.requests,
      p.system = buildSystemContent hist := by
    refine generate_response_requests_all client query hist tools mgr rfl ?_
    intro m
    rfl
  intro p hp
  have hs := hsys p hp
  constructor
  · intro h hh
    subst hh
    simp only [buildSystemContent] at hs
    by_cases he : h.isEmpty
    · rw [if_pos he] at hs
      have he2 : h = "" := (String.isEmpty_iff h).1 he
      subst he2
      exact ⟨"", SYSTEM_PROMPT, by rw [hs]; simp⟩
    · rw [if_neg he] at hs
      exact ⟨SYSTEM_PROMPT ++ "\n\nPrevious conversation:\n", "", by rw [hs]; simp⟩
  · intro hh
    subst hh
    exact hs

/-- On a successful tool scan, one loop iteration records exactly one new
request: the `mkNextParams` follow-up carrying the accumulated messages. -/
theorem loopBody_ok_trace (client : Model) (mgr : ToolMgr) (base : ApiParams)
    (msgs : List Message) (cur : ApiResponse) (tr tr1 : Trace) (rs : List ToolResultBlock)
    (hexec : executeToolBlocks mgr cur.content tr = (tr1, .ok rs)) :
    (loopBody client mgr base msgs cur tr).trace.requests =
      tr.requests ++ [mkNextParams base (bodyMessages msgs cur rs)] := by
  have hreq : tr1.requests = tr.requests := by
    have h := executeToolBlocks_requests mgr cur.content tr
    rw [hexec] at h
    exact h
  unfold loopBody
  rw [hexec]
  cases hcall : client tr1.requests.length (mkNextParams base (bodyMessages msgs cur rs)) with
  | error e =>
    simp only [hcall]
    simp [StepOut.trace, hreq]
  | ok resp =>
    simp only [hcall]
    simp [StepOut.trace, hreq]

/-- Claim C2: for a model response processed by the tool-execution loop that
contains N ≥ 1 tool_use blocks, all of whose tool executions return, the
driver appends exactly one assistant turn (the response's content) followed
by exactly one user turn holding exactly N tool_result blocks — one per
tool_use block, in the same relative order, each carrying the id of the
tool_use block that produced it — and the next model request carries exactly
these messages. -/
theorem tool_results_one_to_one (client : Model) (mgr : ToolMgr) (base : ApiParams)
    (msgs : List Message) (cur : ApiResponse) (tr tr1 : Trace)
    (rs : List ToolResultBlock) (N : Nat)
    (hexec : executeToolBlocks mgr cur.content tr = (tr1, .ok rs))
    (hN : (toolUseIds cur.content).length = N) (hpos : 0 < N) :
    (loopBody client mgr base msgs cur tr).trace.requests =
      tr.requests ++ [mkNextParams base
        (msgs ++ [{ role := "assistant", content := .blocks cur.content },
                  { role := "user", content := .results rs }])] ∧
    rs.length = N ∧
    rs.map (fun r => r.tool_use_id) = toolUseIds cur.content := by
  have hids := executeToolBlocks_ids mgr cur.content tr tr1 rs hexec
  have hlen : rs.length = N := by
    rw [← hN, ← hids]
    simp
  have hrs : ¬ rs.isEmpty = true := by
    cases rs with
    | nil =>
      simp at hlen
      omega
    | cons a l => simp
  have htrace := loopBody_ok_trace client mgr base msgs cur tr tr1 rs hexec
  refine ⟨?_, hlen, hids⟩
  rw [htrace]
  unfold bodyMessages
  rw [if_neg hrs]

/-- Claim C7: every follow-up request issued by the tool-execution loop
carries — when the initial request carried tool schemas — the same tool
schemas with tool-choice mode "auto" still enabled, the same system content,
and the full accumulated message history, so multi-step tool chains remain
possible. -/
theorem followup_keeps_tools (client : Model) (mgr : ToolMgr) (base : ApiParams)
    (msgs : List Message) (cur : ApiResponse) (tr tr1 : Trace)
    (rs : List ToolResultBlock) (ts : List ToolDef)
    (hexec : executeToolBlocks mgr cur.content tr = (tr1, .ok rs))
    (htools : base.tools = some ts) :
    (loopBody client mgr base msgs cur tr).trace.requests =
      tr.requests ++ [mkNextParams base (bodyMessages msgs cur rs)] ∧
    (mkNextParams base (bodyMessages msgs cur rs)).tools = some ts ∧
    (mkNextParams base (bodyMessages msgs cur rs)).tool_choice = some "auto" ∧
    (mkNextParams base (bodyMessages msgs cur rs)).system = base.system ∧
    ∃ tail, (mkNextParams base (bodyMessages msgs cur rs)).messages =
      msgs ++ ({ role := "assistant", content := .blocks cur.content } :: tail) := by
  refine ⟨loopBody_ok_trace client mgr base msgs cur tr tr1 rs hexec, ?_, ?_, rfl, ?_⟩
  · simpa [mkNextParams] using htools
  · simp [mkNextParams, htools]
  · by_cases hrs : rs.isEmpty
    · refine ⟨[], ?_⟩
      simp [mkNextParams, bodyMessages, hrs]
    · refine ⟨[{ role := "user", content := MessageContent.results rs }], ?_⟩
      simp [mkNextParams, bodyMessages, hrs]

/-- On the tool-use path (tool-use stop reason and a manager supplied),
`generate_response` is `_handle_tool_execution`. -/
theorem generate_response_loop_path (client : Model) (mgr : ToolMgr) (query : String)
    (hist : Option String) (tools : Option (List ToolDef)) (r : ApiResponse)
    (hc : client 0 (initialParams query hist tools) = .ok r)
    (hstop : r.stop_reason = "tool_use") :
    generate_response client query hist tools (some mgr) =
      handle_tool_execution client mgr r (initialParams query hist tools)
        { requests := [initialParams query hist tools], toolCalls := [] } := by
  unfold generate_response
  rw [hc]
  simp [hstop]

/-- When the while-loop finishes with a final response, the outcome of
`_handle_tool_execution` is the extracted text of that response. -/
theorem handle_tool_execution_done (client : Model) (mgr : ToolMgr) (r : ApiResponse)
    (base : ApiParams) (tr : Trace) (n : Nat) (resp : ApiResponse)
    (msgs : List Message) (tr1 : Trace)
    (hloop : handleLoop client mgr base n base.messages r tr = .done resp msgs tr1) :
    (handle_tool_execution client mgr r base tr n).outcome = .ok (extractFinalText resp) := by
  unfold handle_tool_execution
  rw [hloop]

/-- A model that answers every request with a response that has no content
blocks and stop reason "end_turn". -/
def emptyResponseClient : Model := fun _ _ =>
  .ok { content := [], stop_reason := "end_turn" }

/-- Claim C3, counterexample: on the direct path (the model never requested
tool use) a final response with no content blocks makes `generate_response`
raise an IndexError at `response.content[0]` instead of returning the fixed
fallback string. -/
theorem empty_final_direct_path_raises :
    (generate_response emptyResponseClient "q" none none none).outcome =
      .err .indexError ∧
    (generate_response emptyResponseClient "q" none none none).outcome ≠
      .ok noResponseFallback := by
  constructor
  · rfl
  · intro h
    have h1 : (generate_response emptyResponseClient "q" none none none).outcome =
        .err .indexError := rfl
    rw [h1] at h
    exact Outcome.noConfusion h

/-- Claim C3, amended: on the tool-execution path — the first response
signals tool use and a manager is supplied — a final loop response with no
content blocks makes `generate_response` return the fixed fallback string
rather than raising; the direct path instead raises an IndexError. -/
theorem loop_path_empty_final_fallback (client : Model) (mgr : ToolMgr)
    (query : String) (hist : Option String) (tools : Option (List ToolDef))
    {r resp : ApiResponse} {msgs : List Message} {tr1 : Trace}
    (hc : client 0 (initialParams query hist tools) = .ok r)
    (hstop : r.stop_reason = "tool_use")
    (hloop : handleLoop client mgr (initialParams query hist tools) 3
        (initialParams query hist tools).messages r
        { requests := [initialParams query hist tools], toolCalls := [] } =
      .done resp msgs tr1)
    (hempty : resp.content = []) :
    (generate_response client query hist tools (some mgr)).outcome =
      .ok noResponseFallback := by
  rw [generate_response_loop_path client mgr query hist tools r hc hstop]
  rw [handle_tool_execution_done client mgr r (initialParams query hist tools) _ 3
    resp msgs tr1 hloop]
  simp [extractFinalText, hempty]

/-- A model that first requests one tool call and then answers with an empty
response. -/
def toolThenEmptyClient : Model := fun k _ =>
  if k == 0 then
    .ok { content := [.toolUse { name := "t1", input := [], id := "id1" }],
          stop_reason := "tool_use" }
  else .ok { content := [], stop_reason := "end_turn" }

/-- A tool manager whose every execution returns normally. -/
def okToolMgr : ToolMgr := fun _ _ => .ok "tool output"

/-- Witness for the amended C3 at a concrete model and manager. -/
theorem loop_path_empty_final_fallback_witness :
    (generate_response toolThenEmptyClient "q" none none (some okToolMgr)).outcome =
      .ok noResponseFallback :=
  loop_path_empty_final_fallback toolThenEmptyClient okToolMgr "q" none none
    rfl rfl rfl rfl

/-- A model that answers every request by signalling tool use with a single
tool_use block. -/
def toolUseOnlyClient : Model := fun _ _ =>
  .ok { content := [.toolUse { name := "search", input := [], id := "id9" }],
        stop_reason := "tool_use" }

/-- Claim C4, counterexample: with no manager supplied the direct path is
taken even though the response signals tool use; the final (single) response
is non-empty but bears no text, and `response.content[0].text` raises an
AttributeError instead of returning the second fallback string. -/
theorem direct_path_no_text_block_raises :
    (generate_response toolUseOnlyClient "q" none none none).outcome =
      .err .attributeError ∧
    (generate_response toolUseOnlyClient "q" none none none).outcome ≠
      .ok noTextFallback := by
  constructor
  · rfl
  · intro h
    have h1 : (generate_response toolUseOnlyClient "q" none none none).outcome =
        .err .attributeError := rfl
    rw [h1] at h
    exact Outcome.noConfusion h

/-- Claim C4, amended: on the tool-execution path, when the loop's final
response is non-empty, `generate_response` returns the text of its first
text-bearing content block, or the second fixed fallback when no block bears
text; on the direct path the driver instead returns `content[0].text`, which
raises when the first block bears no text. -/
theorem loop_path_first_text_block (client : Model) (mgr : ToolMgr)
    (query : String) (hist : Option String) (tools : Option (List ToolDef))
    {r resp : ApiResponse} {msgs : List Message} {tr1 : Trace}
    (hc : client 0 (initialParams query hist tools) = .ok r)
    (hstop : r.stop_reason = "tool_use")
    (hloop : handleLoop client mgr (initialParams query hist tools) 3
        (initialParams query hist tools).messages r
        { requests := [initialParams query hist tools], toolCalls := [] } =
      .done resp msgs tr1)
    (hne : resp.content ≠ []) :
    (generate_response client query hist tools (some mgr)).outcome =
      .ok ((findTextBlock resp.content).getD noTextFallback) := by
  rw [generate_response_loop_path client mgr query hist tools r hc hstop]
  rw [handle_tool_execution_done client mgr r (initialParams query hist tools) _ 3
    resp msgs tr1 hloop]
  have h2 : resp.content.isEmpty = false := by
    cases hcc : resp.content with
    | nil => exact absurd hcc hne
    | cons a l => rfl
  unfold extractFinalText
  rw [h2]
  cases hf : findTextBlock resp.content <;> simp

/-- A model that first requests one tool call and then answers with a
response whose text block is preceded by a tool_use block. -/
def toolThenMixedClient : Model := fun k _ =>
  if k == 0 then
    .ok { content := [.toolUse { name := "t2", input := [], id := "id2" }],
          stop_reason := "tool_use" }
  else
    .ok { content := [.toolUse { name := "t3", input := [], id := "id3" },
                      .text "the answer"],
          stop_reason := "end_turn" }

/-- Witness for the amended C4 at a concrete model and manager: the first
text-bearing block is returned even though it is not the first block. -/
theorem loop_path_first_text_block_witness :
    (generate_response toolThenMixedClient "q" none none (some okToolMgr)).outcome =
      .ok ((findTextBlock [.toolUse { name := "t3", input := [], id := "id3" },
                           .text "the answer"]).getD noTextFallback) :=
  loop_path_first_text_block toolThenMixedClient okToolMgr "q" none none
    rfl rfl rfl (by intro h; cases h)

/-- Claim C6: exceptions propagate out of the driver unmodified — no catch,
no retry, no fallback substitution.  (1) An exception from the initial model
call escapes `generate_response` with the same payload; (2) an exception
from a tool execution aborts the loop iteration with the same payload;
(3) an exception from a follow-up model call aborts the loop iteration with
the same payload; (4) any exception produced inside the while-loop escapes
`generate_response` unmodified. -/
theorem errors_propagate (client : Model) (mgr : ToolMgr) (query : String)
    (hist : Option String) (tools : Option (List ToolDef)) :
    (∀ e, client 0 (initialParams query hist tools) = .error e →
      (generate_response client query hist tools (some mgr)).outcome =
        .err (.apiError e)) ∧
    (∀ base msgs cur tr tr1 e,
      executeToolBlocks mgr cur.content tr = (tr1, .error e) →
      loopBody client mgr base msgs cur tr = .fail (.toolError e) tr1) ∧
    (∀ base msgs cur tr tr1 rs e,
      executeToolBlocks mgr cur.content tr = (tr1, .ok rs) →
      client tr1.requests.length (mkNextParams base (bodyMessages msgs cur rs)) =
        .error e →
      loopBody client mgr base msgs cur tr = .fail (.apiError e)
        { tr1 with
          requests := tr1.requests ++ [mkNextParams base (bodyMessages msgs cur rs)] }) ∧
    (∀ r e tr2,
      client 0 (initialParams query hist tools) = .ok r →
      r.stop_reason = "tool_use" →
      handleLoop client mgr (initialParams query hist tools) 3
        (initialParams query hist tools).messages r
        { requests := [initialParams query hist tools], toolCalls := [] } =
        .err e tr2 →
      (generate_response client query hist tools (some mgr)).outcome = .err e) := by
  refine ⟨?_, ?_, ?_, ?_⟩
  · intro e hc
    unfold generate_response
    rw [hc]
  · intro base msgs cur tr tr1 e hexec
    unfold loopBody
    rw [hexec]
  · intro base msgs cur tr tr1 rs e hexec hcall
    unfold loopBody
    rw [hexec]
    simp only [hcall]
  · intro r e tr2 hc hstop hloop
    rw [generate_response_loop_path client mgr query hist tools r hc hstop]
    unfold handle_tool_execution
    rw [hloop]

/-- A model client whose every call raises. -/
def errClient : Model := fun _ _ => .error "API Error"

/-- A tool manager whose every execution raises. -/
def errMgr : ToolMgr := fun _ _ => .error "Tool execution failed"

/-- A model that returns a tool-use response on the first call and raises on
every later call. -/
def failSecondClient : Model := fun k _ =>
  if k == 0 then
    .ok { content := [.toolUse { name := "t", input := [], id := "i" }],
          stop_reason := "tool_use" }
  else .error "boom2"

/-- The tool-use response `failSecondClient` returns on its first call. -/
def curW : ApiResponse :=
  { content := [.toolUse { name := "t", input := [], id := "i" }],
    stop_reason := "tool_use" }

/-- The initial request of the witness runs. -/
def p0W : ApiParams := initialParams "q" none none

/-- Witness for C6 at concrete oracles: each kind of raised exception shows
up verbatim in the result. -/
theorem errors_propagate_witness :
    (generate_response errClient "q" none none (some okToolMgr)).outcome =
      .err (.apiError "API Error") ∧
    loopBody failSecondClient errMgr p0W [{ role := "user", content := .str "q" }]
        curW { requests := [], toolCalls := [] } =
      .fail (.toolError "Tool execution failed")
        { requests := [], toolCalls := [("t", [])] } ∧
    loopBody failSecondClient okToolMgr p0W [{ role := "user", content := .str "q" }]
        curW { requests := [p0W], toolCalls := [] } =
      .fail (.apiError "boom2")
        { requests := [p0W,
            mkNextParams p0W (bodyMessages [{ role := "user", content := .str "q" }]
              curW [{ tool_use_id := "i", content := "tool output" }])],
          toolCalls := [("t", [])] } ∧
    (generate_response failSecondClient "q" none none (some okToolMgr)).outcome =
      .err (.apiError "boom2") := by
  refine ⟨?_, ?_, ?_, ?_⟩
  · exact (errors_propagate errClient okToolMgr "q" none none).1 "API Error" rfl
  · exact (errors_propagate failSecondClient errMgr "q" none none).2.1
      p0W [{ role := "user", content := .str "q" }] curW
      { requests := [], toolCalls := [] } _ "Tool execution failed" rfl
  · exact (errors_propagate failSecondClient okToolMgr "q" none none).2.2.1
      p0W [{ role := "user", content := .str "q" }] curW
      { requests := [p0W], toolCalls := [] } _ _ "boom2" rfl rfl
  · exact (errors_propagate failSecondClient okToolMgr "q" none none).2.2.2
      curW (.apiError "boom2") _ rfl rfl rfl

/-- Claim C8 (ToolManager modelled from the spec, `search_tools.py` not being
among the sources): executing a tool name not present in the registry
returns the "Tool not found" string for all keyword arguments — a handled
condition; in this model `execute_tool` is a total function, so it never
raises. -/
theorem unknown_tool_returns_not_found (m : ToolManager) (name : String)
    (kwargs : List (String × String))
    (habs : ∀ q ∈ m.tools, q.1 ≠ name) :
    m.execute_tool name kwargs = "Tool \x27" ++ name ++ "\x27 not found" := by
  unfold ToolManager.execute_tool
  have hfind : m.tools.find? (fun p => p.1 == name) = none := by
    apply List.find?_eq_none.2
    intro q hq
    simpa using habs q hq
  rw [hfind]

/-- Witness for C8: the empty registry with an unknown name and a keyword
argument. -/
theorem unknown_tool_returns_not_found_witness :
    ToolManager.execute_tool ⟨[]⟩ "missing" [("x", "1")] =
      "Tool \x27" ++ "missing" ++ "\x27 not found" :=
  unknown_tool_returns_not_found ⟨[]⟩ "missing" [("x", "1")]
    (by intro q hq; cases hq)

/-- Claim C10: with no tool manager supplied the driver issues exactly one
model request and executes no tool — even when the response signals tool
use — and returns the text of the first content block of that single
response when that block bears text. -/
theorem no_manager_single_request (client : Model) (query : String)
    (hist : Option String) (tools : Option (List ToolDef)) :
    (generate_response client query hist tools none).trace.requests.length = 1 ∧
    (generate_response client query hist tools none).trace.toolCalls = [] ∧
    (∀ r s rest, client 0 (initialParams query hist tools) = .ok r →
      r.content = ContentBlock.text s :: rest →
      (generate_response client query hist tools none).outcome = .ok s) := by
  unfold generate_response
  cases hc : client 0 (initialParams query hist tools) with
  | error e =>
    refine ⟨rfl, rfl, ?_⟩
    intro r s rest hr hcont
    exact Except.noConfusion hr
  | ok response =>
    cases hs : response.stop_reason == "tool_use" with
    | false =>
      simp only [hs, Bool.false_eq_true, if_false]
      refine ⟨by simp [directRun_trace], by simp [directRun_trace], ?_⟩
      intro r s rest hr hcont
      have hre : response = r := Except.ok.inj hr
      subst hre
      simp [directRun, directText, hcont]
    | true =>
      simp only [hs, if_true]
      refine ⟨by simp [directRun_trace], by simp [directRun_trace], ?_⟩
      intro r s rest hr hcont
      have hre : response = r := Except.ok.inj hr
      subst hre
      simp [directRun, directText, hcont]

/-- A model that signals tool use but whose first content block is a text
block. -/
def textWithToolStopClient : Model := fun _ _ =>
  .ok { content := [.text "direct answer"], stop_reason := "tool_use" }

/-- Witness for C10: one request, no tool executed, the first block's text
returned, although the response signalled tool use. -/
theorem no_manager_single_request_witness :
    (generate_response textWithToolStopClient "q" none none none).trace.requests.length = 1 ∧
    (generate_response textWithToolStopClient "q" none none none).trace.toolCalls = [] ∧
    (generate_response textWithToolStopClient "q" none none none).outcome =
      .ok "direct answer" := by
  have h := no_manager_single_request textWithToolStopClient "q" none none
  exact ⟨h.1, h.2.1, h.2.2 _ "direct answer" [] rfl rfl⟩

/-- A non-empty tools list for the witness runs. -/
def toolDefsW : List ToolDef :=
  [{ name := "t", description := "d", input_schema := "s" }]

/-- The initial request of the witness runs that carry tools. -/
def pW : ApiParams := initialParams "q" none (some toolDefsW)

/-- The message history of the witness loop iterations. -/
def msgsW : List Message := [{ role := "user", content := .str "q" }]

/-- The tool results produced by `okToolMgr` on `curW`. -/
def rsW : List ToolResultBlock := [{ tool_use_id := "i", content := "tool output" }]

/-- Witness for C2 at a concrete loop iteration: one assistant turn, one
user turn with exactly one tool_result whose id matches the tool_use id. -/
theorem tool_results_one_to_one_witness :
    (loopBody failSecondClient okToolMgr pW msgsW curW
        { requests := [], toolCalls := [] }).trace.requests =
      [mkNextParams pW
        (msgsW ++ [{ role := "assistant", content := .blocks curW.content },
                   { role := "user", content := .results rsW }])] ∧
    rsW.length = 1 ∧
    rsW.map (fun r => r.tool_use_id) = toolUseIds curW.content := by
  have h := tool_results_one_to_one failSecondClient okToolMgr pW msgsW curW
    { requests := [], toolCalls := [] } { requests := [], toolCalls := [("t", [])] }
    rsW 1 rfl rfl (by decide)
  simpa using h

/-- Witness for C7 at a concrete loop iteration with tools attached. -/
theorem followup_keeps_tools_witness :
    (loopBody failSecondClient okToolMgr pW msgsW curW
        { requests := [], toolCalls := [] }).trace.requests =
      [mkNextParams pW (bodyMessages msgsW curW rsW)] ∧
    (mkNextParams pW (bodyMessages msgsW curW rsW)).tools = some toolDefsW ∧
    (mkNextParams pW (bodyMessages msgsW curW rsW)).tool_choice = some "auto" ∧
    (mkNextParams pW (bodyMessages msgsW curW rsW)).system = pW.system ∧
    ∃ tail, (mkNextParams pW (bodyMessages msgsW curW rsW)).messages =
      msgsW ++ ({ role := "assistant", content := .blocks curW.content } :: tail) := by
  have h := followup_keeps_tools failSecondClient okToolMgr pW msgsW curW
    { requests := [], toolCalls := [] } { requests := [], toolCalls := [("t", [])] }
    rsW toolDefsW rfl rfl
  simpa using h

/-- Witness for C9 at the initial request of a run with tools attached. -/
theorem fixed_invocation_params_witness :
    pW.temperature = 0 ∧ pW.max_tokens = 800 ∧ pW.tool_choice = some "auto" := by
  have h := fixed_invocation_params errClient "q" none (some toolDefsW) none pW
    (List.mem_singleton.2 rfl)
  exact ⟨h.1, h.2.1, h.2.2 rfl⟩

/-- Witness for C5: a supplied history appears inside the system content of
the issued request; with no history the system content is SYSTEM_PROMPT. -/
theorem history_in_system_content_witness :
    (∃ pre post,
      (initialParams "q" (some "User: hi") none).system = pre ++ "User: hi" ++ post) ∧
    (initialParams "q" none none).system = SYSTEM_PROMPT := by
  have hA := history_in_system_content emptyResponseClient "q" (some "User: hi")
    none none (initialParams "q" (some "User: hi") none) (List.mem_singleton.2 rfl)
  have hB := history_in_system_content emptyResponseClient "q" none none none
    (initialParams "q" none none) (List.mem_singleton.2 rfl)
  exact ⟨hA.1 "User: hi" rfl, hB.2 rfl⟩

end RagChatbot
